import Mathlib

/-!
Verification of the quant-macro repository's core logic against its
specification.

The repository holds three Python scripts:
  * midterm1-4,5.py  — HP-filter business-cycle comparison of two countries,
  * project1.py      — HP-filter smoothing-parameter sensitivity study,
  * midterm2.py      — synthetic growth-accounting table.

Time series are modelled as lists of rational values (with integer
timestamps where alignment matters); the scripts' floating-point
arithmetic is embedded as exact rational arithmetic.  The statsmodels
function hpfilter called by the first two scripts is not part of the
repository's files, so the decomposition is modelled from the
specification's description of decompose (penalized least squares with a
second-difference penalty, cycle = series - trend, failure on fewer than
3 observations).
-/

/-- Error kinds named by the specification's error-handling design. -/
inductive CoreError where
  | insufficientData
  | emptyIntersection
  | misalignedSeries
  | divisionByZero
  deriving DecidableEq

/-! ## Correlation strength labels (midterm1-4,5.py lines 66-79) -/

/-- The seven discrete strength labels of the correlation chain in
midterm1-4,5.py.  The source's Japanese strings correspond one to one:
veryStrongPositive is the label printed for a very strong positive
correlation, and so on down to moderateOrStrongerNegative for the final
else branch. -/
inductive Strength where
  | veryStrongPositive
  | strongPositive
  | moderatePositive
  | weakPositive
  | negligible
  | weakNegative
  | moderateOrStrongerNegative
  deriving DecidableEq

/-- The if/elif chain of midterm1-4,5.py lines 66-79: every comparison is a
strict greater-than against a fixed threshold, evaluated top-down. -/
def correlation_strength (c : ℚ) : Strength :=
  if c > 7 / 10 then Strength.veryStrongPositive
  else if c > 5 / 10 then Strength.strongPositive
  else if c > 3 / 10 then Strength.moderatePositive
  else if c > 1 / 10 then Strength.weakPositive
  else if c > -1 / 10 then Strength.negligible
  else if c > -3 / 10 then Strength.weakNegative
  else Strength.moderateOrStrongerNegative

/-! ## Common-range alignment (midterm1-4,5.py lines 25-29) -/

/-- Minimum timestamp of a series, as pandas index.min() computes it over the
index of a (timestamp, value) series; 0 for the empty series, which the
script never produces. -/
def tsMin : List (Int × ℚ) → Int
  | [] => 0
  | [p] => p.1
  | p :: q :: rest => min p.1 (tsMin (q :: rest))

/-- Maximum timestamp of a series, as pandas index.max() computes it. -/
def tsMax : List (Int × ℚ) → Int
  | [] => 0
  | [p] => p.1
  | p :: q :: rest => max p.1 (tsMax (q :: rest))

/-- Label-based slice s[lo:hi] of a pandas series with monotone index: keeps
exactly the entries whose timestamp lies in the closed range [lo, hi]. -/
def sliceRange (lo hi : Int) (s : List (Int × ℚ)) : List (Int × ℚ) :=
  s.filter fun p => decide (lo ≤ p.1 ∧ p.1 ≤ hi)

/-- Lines 25-29 of midterm1-4,5.py: common_start is the larger of the two
index minima, common_end the smaller of the two maxima, and both series are
sliced to [common_start, common_end].  The source performs no overlap check. -/
def alignCommonRange (a b : List (Int × ℚ)) : List (Int × ℚ) × List (Int × ℚ) :=
  (sliceRange (max (tsMin a) (tsMin b)) (min (tsMax a) (tsMax b)) a,
   sliceRange (max (tsMin a) (tsMin b)) (min (tsMax a) (tsMax b)) b)

/-! ## Cycle statistics (midterm1-4,5.py lines 49-55) -/

/-- Arithmetic mean of a list of values, as pandas computes it. -/
def sampleMean (xs : List ℚ) : ℚ := xs.sum / (xs.length : ℚ)

/-- Sample variance with ddof = 1, the square of pandas Series.std(). -/
def sampleVariance (xs : List ℚ) : ℚ :=
  ((xs.map fun x => (x - sampleMean xs) ^ 2).sum) / ((xs.length : ℚ) - 1)

/-- Line 55 of midterm1-4,5.py: the ratio of the two cycle standard
deviations is formed by a plain division with no zero check of any kind. -/
def std_ratio (spain_cycle_std japan_cycle_std : ℚ) : ℚ :=
  spain_cycle_std / japan_cycle_std

/-! ## The HP decomposition

Modelled from the spec: the statsmodels function hpfilter that both scripts
call is not among the repository's files.  The specification describes
decompose(series, lambda) as choosing the trend minimizing the sum of squared
deviations from the data plus lambda times the sum of squared second
differences of the trend, with cycle = series - trend, and failing with
InsufficientDataError on fewer than 3 observations.  The trend below solves
the normal equations (I + lambda * Kᵀ K) τ = y of that least-squares problem
by Cramer's rule, K being the second-difference matrix; the variational form
of the same description is the predicate IsHPTrend. -/

/-- Modelled from the spec: the second-difference matrix K with rows
(1, -2, 1) used by the penalty term of the HP objective. -/
def secondDiffMatrix (n : ℕ) : Matrix (Fin (n - 2)) (Fin n) ℚ :=
  Matrix.of fun i j =>
    if (j : ℕ) = (i : ℕ) then 1
    else if (j : ℕ) = (i : ℕ) + 1 then -2
    else if (j : ℕ) = (i : ℕ) + 2 then 1
    else 0

/-- Modelled from the spec: the system matrix I + lambda * Kᵀ K of the
penalized least-squares problem. -/
def hpMatrix (n : ℕ) (lam : ℚ) : Matrix (Fin n) (Fin n) ℚ :=
  1 + lam • ((secondDiffMatrix n).transpose * secondDiffMatrix n)

/-- Modelled from the spec: the trend component, the solution of the normal
equations (I + lambda * Kᵀ K) τ = y written with the adjugate. -/
def hpTrend (s : List ℚ) (lam : ℚ) : List ℚ :=
  List.ofFn fun i : Fin s.length =>
    ((hpMatrix s.length lam).det⁻¹ •
      ((hpMatrix s.length lam).adjugate.mulVec s.get)) i

/-- Modelled from the spec: cycle = series - trend, elementwise. -/
def hpCycle (s : List ℚ) (lam : ℚ) : List ℚ :=
  List.zipWith (· - ·) s (hpTrend s lam)

/-- Modelled from the spec: the statsmodels hpfilter returns the pair
(cycle, trend), in that order, for both calling scripts. -/
def hpfilter (s : List ℚ) (lam : ℚ) : List ℚ × List ℚ :=
  (hpCycle s lam, hpTrend s lam)

/-- A decomposition result: the two components owned by a FilterResult. -/
structure FilterResult where
  trend : List ℚ
  cycle : List ℚ
  deriving DecidableEq

/-- Modelled from the spec: decompose(series, lambda) fails with
InsufficientDataError on fewer than 3 observations and otherwise returns the
trend and the cycle = series - trend. -/
def decompose (s : List ℚ) (lam : ℚ) : Except CoreError FilterResult :=
  if s.length < 3 then Except.error CoreError.insufficientData
  else Except.ok { trend := hpTrend s lam, cycle := hpCycle s lam }

/-! ## Script-level bindings of hpfilter's return pair -/

/-- Line 41 of midterm1-4,5.py: the first variable of the unpacking
spain_trend, spain_cycle = hpfilter(...) receives the first component of
the returned pair. -/
def spain_trend (s : List ℚ) (lam : ℚ) : List ℚ := (hpfilter s lam).1

/-- Line 41 of midterm1-4,5.py: the second variable of the unpacking. -/
def spain_cycle (s : List ℚ) (lam : ℚ) : List ℚ := (hpfilter s lam).2

/-- Line 23 of project1.py: the first variable of the unpacking
cycle, trend = hpfilter(...) receives the first component. -/
def project1_cycle (s : List ℚ) (lam : ℚ) : List ℚ := (hpfilter s lam).1

/-- Line 23 of project1.py: the second variable of the unpacking. -/
def project1_trend (s : List ℚ) (lam : ℚ) : List ℚ := (hpfilter s lam).2

/-! ## The variational description of the trend (spec-modelled) -/

/-- Second differences of a list: entry i is x[i] - 2 x[i+1] + x[i+2]. -/
def secondDiffs : List ℚ → List ℚ
  | a :: b :: c :: rest => (a - 2 * b + c) :: secondDiffs (b :: c :: rest)
  | _ => []

/-- Sum of squares of a list of rationals. -/
def sumSq (xs : List ℚ) : ℚ := (xs.map fun x => x * x).sum

/-- Sum of squared deviations of the trend from the data. -/
def fitCost (s τ : List ℚ) : ℚ := sumSq (List.zipWith (· - ·) s τ)

/-- Modelled from the spec: the penalized least-squares objective of
decompose — squared deviations plus lambda times the squared
second-difference penalty. -/
def hpObjective (s τ : List ℚ) (lam : ℚ) : ℚ :=
  fitCost s τ + lam * sumSq (secondDiffs τ)

/-- Modelled from the spec: τ is an HP trend for series s and penalty lambda
when it has the length of s and minimizes the HP objective among all
candidate trends of that length. -/
def IsHPTrend (s : List ℚ) (lam : ℚ) (τ : List ℚ) : Prop :=
  τ.length = s.length ∧
    ∀ τ' : List ℚ, τ'.length = s.length →
      hpObjective s τ lam ≤ hpObjective s τ' lam

/-- Mean squared second difference of a series, the smoothness measure of
the sensitivity study: the squared-second-difference penalty divided by the
number of second differences. -/
def mssd (τ : List ℚ) : ℚ := sumSq (secondDiffs τ) / ((τ.length : ℚ) - 2)

/-! ## Growth accounting (midterm2.py) -/

/-- The two share parameters held by the GrowthAccounting class. -/
structure GrowthAccounting where
  alpha : ℚ
  beta : ℚ
  deriving DecidableEq

/-- Lines 37-40 of midterm2.py: the constructor stores alpha and maintains
beta = 1 - alpha. -/
def GrowthAccounting.init (alpha : ℚ) : GrowthAccounting :=
  { alpha := alpha, beta := 1 - alpha }

/-- One row of the results table produced by calculate_growth_rates. -/
structure GrowthRow where
  gdp_growth : ℚ
  capital_growth : ℚ
  labor_growth : ℚ
  tfp_growth : ℚ
  capital_contribution : ℚ
  labor_contribution : ℚ
  tfp_share : ℚ
  capital_share : ℚ
  capital_deepening : ℚ
  deriving DecidableEq

/-- Lines 147-170 of midterm2.py for one country row, with the annualized
growth rates of GDP, capital and labor (real-valued roots in the source)
taken as given inputs: TFP growth is the residual of the accounting
identity, the contributions are the alpha- and beta-weighted factor growth
rates, and the two shares divide by total growth only when it is strictly
positive, being set to 0 otherwise. -/
def calculate_growth_rates (ga : GrowthAccounting)
    (gdp_growth capital_growth labor_growth : ℚ) : GrowthRow :=
  let tfp_growth := gdp_growth - ga.alpha * capital_growth - ga.beta * labor_growth
  let capital_contribution := ga.alpha * capital_growth
  let labor_contribution := ga.beta * labor_growth
  let total_growth := gdp_growth
  let tfp_share := if total_growth > 0 then tfp_growth / total_growth else 0
  let capital_share := if total_growth > 0 then capital_contribution / total_growth else 0
  { gdp_growth := gdp_growth
    capital_growth := capital_growth
    labor_growth := labor_growth
    tfp_growth := tfp_growth
    capital_contribution := capital_contribution
    labor_contribution := labor_contribution
    tfp_share := tfp_share
    capital_share := capital_share
    capital_deepening := capital_growth - labor_growth }

/-! ## Helper lemmas -/

theorem sumSq_nonneg (xs : List ℚ) : 0 ≤ sumSq xs := by
  unfold sumSq
  induction xs with
  | nil => simp
  | cons y ys ih =>
    simp only [List.map_cons, List.sum_cons]
    exact add_nonneg (mul_self_nonneg y) ih

theorem hpObjective_nonneg (s τ : List ℚ) (lam : ℚ) (hlam : 0 ≤ lam) :
    0 ≤ hpObjective s τ lam :=
  add_nonneg (sumSq_nonneg _) (mul_nonneg hlam (sumSq_nonneg _))

theorem hpTrend_length (s : List ℚ) (lam : ℚ) : (hpTrend s lam).length = s.length := by
  unfold hpTrend
  exact List.length_ofFn _

theorem hpCycle_length (s : List ℚ) (lam : ℚ) : (hpCycle s lam).length = s.length := by
  unfold hpCycle
  rw [List.length_zipWith, hpTrend_length, min_self]

theorem getD_add_zipWith_sub (a : List ℚ) :
    ∀ b : List ℚ, b.length = a.length → ∀ t : ℕ,
      b.getD t 0 + (List.zipWith (· - ·) a b).getD t 0 = a.getD t 0 := by
  induction a with
  | nil =>
    intro b hb t
    have hb' : b = [] := List.length_eq_zero.mp (by simpa using hb)
    subst hb'
    simp
  | cons x xs ih =>
    intro b hb t
    cases b with
    | nil => simp at hb
    | cons y ys =>
      cases t with
      | zero =>
        simp only [List.zipWith_cons_cons, List.getD_cons_zero]
        ring
      | succ n =>
        simp only [List.zipWith_cons_cons, List.getD_cons_succ]
        exact ih ys (by simpa using hb) n

theorem sum_of_constant (cval : ℚ) :
    ∀ xs : List ℚ, (∀ x ∈ xs, x = cval) → xs.sum = (xs.length : ℚ) * cval
  | [], _ => by simp
  | y :: ys, h => by
    have hy : y = cval := h y (List.mem_cons_self y ys)
    have hrest := sum_of_constant cval ys fun x hx => h x (List.mem_cons_of_mem y hx)
    rw [List.sum_cons, hrest, hy, List.length_cons]
    push_cast
    ring

theorem sampleMean_of_constant (cval : ℚ) (xs : List ℚ) (hne : xs ≠ [])
    (h : ∀ x ∈ xs, x = cval) : sampleMean xs = cval := by
  have hlen : (xs.length : ℚ) ≠ 0 :=
    Nat.cast_ne_zero.mpr (List.length_pos.mpr hne).ne'
  unfold sampleMean
  rw [sum_of_constant cval xs h, mul_comm, mul_div_assoc, div_self hlen, mul_one]

/-! ## C2 — correlation-strength thresholds -/

/-- C2 counterexample: the claim asserts inclusive lower bounds, so a
correlation of exactly 0.7 would have to map to the very strong positive
label; the source's strict comparisons map 0.7 to the strong positive label
instead (and -0.1 to the weak negative label rather than negligible). -/
theorem correlation_strength_boundary_counterexample :
    correlation_strength (7 / 10) = Strength.strongPositive ∧
    Strength.strongPositive ≠ Strength.veryStrongPositive ∧
    correlation_strength (-1 / 10) = Strength.weakNegative ∧
    Strength.weakNegative ≠ Strength.negligible := by
  constructor
  · norm_num [correlation_strength]
  refine ⟨by decide, ?_, by decide⟩
  norm_num [correlation_strength]

/-- C2 (amended): the strength label is a total function of the correlation
given by the fixed threshold table evaluated top-down with an exclusive
lower bound and inclusive upper bound on every band: c > 0.7 is very strong
positive, 0.5 < c ≤ 0.7 strong positive, 0.3 < c ≤ 0.5 moderate positive,
0.1 < c ≤ 0.3 weak positive, -0.1 < c ≤ 0.1 negligible, -0.3 < c ≤ -0.1
weak negative, and c ≤ -0.3 moderate-or-stronger negative; in particular
0.65 maps to strong positive and -0.5 to moderate-or-stronger negative. -/
theorem correlation_strength_exclusive_thresholds (c : ℚ) :
    (7 / 10 < c → correlation_strength c = Strength.veryStrongPositive) ∧
    (5 / 10 < c ∧ c ≤ 7 / 10 → correlation_strength c = Strength.strongPositive) ∧
    (3 / 10 < c ∧ c ≤ 5 / 10 → correlation_strength c = Strength.moderatePositive) ∧
    (1 / 10 < c ∧ c ≤ 3 / 10 → correlation_strength c = Strength.weakPositive) ∧
    (-1 / 10 < c ∧ c ≤ 1 / 10 → correlation_strength c = Strength.negligible) ∧
    (-3 / 10 < c ∧ c ≤ -1 / 10 → correlation_strength c = Strength.weakNegative) ∧
    (c ≤ -3 / 10 → correlation_strength c = Strength.moderateOrStrongerNegative) ∧
    correlation_strength (65 / 100) = Strength.strongPositive ∧
    correlation_strength (-5 / 10) = Strength.moderateOrStrongerNegative := by
  refine ⟨fun h => ?_, fun h => ?_, fun h => ?_, fun h => ?_, fun h => ?_, fun h => ?_,
    fun h => ?_, by norm_num [correlation_strength], by norm_num [correlation_strength]⟩ <;>
    (unfold correlation_strength
     split_ifs <;> first | rfl | (exfalso; linarith))

/-! ## C3 — the two scripts' bindings of hpfilter's return pair -/

/-- C3: for the same series and lambda, the value midterm1-4,5.py binds to
its first, trend-named variable is exactly the value project1.py binds to
its first, cycle-named variable (both receive hpfilter's first component,
the cycle), and the second-bound variables also coincide, so the two
scripts' notions of trend and cycle are swapped relative to each other. -/
theorem hpfilter_binding_order (s : List ℚ) (lam : ℚ) :
    spain_trend s lam = project1_cycle s lam ∧
    spain_cycle s lam = project1_trend s lam ∧
    spain_trend s lam = hpCycle s lam ∧
    project1_trend s lam = hpTrend s lam :=
  ⟨rfl, rfl, rfl, rfl⟩

/-! ## C9 — the growth-accounting identity -/

/-- C9: for every country row of calculate_growth_rates the accounting
identity holds exactly in rational arithmetic: gdp growth equals tfp growth
plus alpha times capital growth plus (1 - alpha) times labor growth,
because tfp growth is defined as the residual of the identity and the
constructor maintains beta = 1 - alpha. -/
theorem growth_accounting_identity (alpha gdp_growth capital_growth labor_growth : ℚ) :
    (calculate_growth_rates (GrowthAccounting.init alpha)
        gdp_growth capital_growth labor_growth).gdp_growth =
      (calculate_growth_rates (GrowthAccounting.init alpha)
          gdp_growth capital_growth labor_growth).tfp_growth +
        alpha * (calculate_growth_rates (GrowthAccounting.init alpha)
          gdp_growth capital_growth labor_growth).capital_growth +
        (1 - alpha) * (calculate_growth_rates (GrowthAccounting.init alpha)
          gdp_growth capital_growth labor_growth).labor_growth ∧
    (GrowthAccounting.init alpha).beta = 1 - alpha := by
  refine ⟨?_, rfl⟩
  simp only [calculate_growth_rates, GrowthAccounting.init]
  ring

/-! ## C10 — guarded share computation -/

/-- C10: the shares of total growth divide by the total GDP growth rate only
when it is strictly positive; when it is zero or negative both shares are
set to 0, so the share computation never divides by zero.  When the guard
holds, multiplying each share back by the (nonzero) total growth recovers
the dividend. -/
theorem growth_shares_guarded (alpha gdp_growth capital_growth labor_growth : ℚ) :
    (gdp_growth ≤ 0 →
      (calculate_growth_rates (GrowthAccounting.init alpha)
          gdp_growth capital_growth labor_growth).tfp_share = 0 ∧
      (calculate_growth_rates (GrowthAccounting.init alpha)
          gdp_growth capital_growth labor_growth).capital_share = 0) ∧
    (0 < gdp_growth →
      (calculate_growth_rates (GrowthAccounting.init alpha)
          gdp_growth capital_growth labor_growth).tfp_share * gdp_growth =
        (calculate_growth_rates (GrowthAccounting.init alpha)
          gdp_growth capital_growth labor_growth).tfp_growth ∧
      (calculate_growth_rates (GrowthAccounting.init alpha)
          gdp_growth capital_growth labor_growth).capital_share * gdp_growth =
        (calculate_growth_rates (GrowthAccounting.init alpha)
          gdp_growth capital_growth labor_growth).capital_contribution) := by
  constructor
  · intro h
    simp only [calculate_growth_rates]
    rw [if_neg (not_lt.mpr h), if_neg (not_lt.mpr h)]
    exact ⟨rfl, rfl⟩
  · intro h
    simp only [calculate_growth_rates]
    rw [if_pos h, if_pos h]
    exact ⟨div_mul_cancel₀ _ (ne_of_gt h), div_mul_cancel₀ _ (ne_of_gt h)⟩

/-! ## C4 — insufficient data -/

/-- C4: for every input series with fewer than 3 observations, decompose
fails with InsufficientDataError and returns no decomposition. -/
theorem decompose_insufficient_data (s : List ℚ) (lam : ℚ) (h : s.length < 3) :
    decompose s lam = Except.error CoreError.insufficientData := by
  unfold decompose
  rw [if_pos h]

/-- C4 witness: a two-observation series with the conventional quarterly
penalty is rejected. -/
theorem decompose_insufficient_data_witness :
    ([(1 : ℚ), 2]).length < 3 ∧
    decompose [(1 : ℚ), 2] 1600 = Except.error CoreError.insufficientData :=
  ⟨by decide, decompose_insufficient_data [(1 : ℚ), 2] 1600 (by decide)⟩

/-! ## C5 — common-range alignment -/

/-- C5 counterexample: on two series whose timestamp ranges are disjoint
(first series covers 0..2, second covers 10..11, so the larger minimum 10
exceeds the smaller maximum 2), the source raises nothing: the alignment is
a total function and returns the pair of empty sliced series, contradicting
the claimed EmptyIntersectionError failure. -/
theorem alignCommonRange_disjoint_counterexample :
    alignCommonRange [((0 : Int), (1 : ℚ)), (1, 2), (2, 3)]
        [((10 : Int), (4 : ℚ)), (11, 5)] = ([], []) := by
  decide

/-- C5 (amended): when the two timestamp ranges do not overlap (the larger
of the two minima exceeds the smaller of the two maxima), alignCommonRange
returns a pair of empty series rather than raising an error; for
overlapping ranges it restricts both series exactly to the common closed
range from max(minA, minB) to min(maxA, maxB). -/
theorem alignCommonRange_behavior (a b : List (Int × ℚ)) :
    (min (tsMax a) (tsMax b) < max (tsMin a) (tsMin b) →
      alignCommonRange a b = ([], [])) ∧
    (∀ p : Int × ℚ, p ∈ (alignCommonRange a b).1 ↔
      p ∈ a ∧ max (tsMin a) (tsMin b) ≤ p.1 ∧ p.1 ≤ min (tsMax a) (tsMax b)) ∧
    (∀ p : Int × ℚ, p ∈ (alignCommonRange a b).2 ↔
      p ∈ b ∧ max (tsMin a) (tsMin b) ≤ p.1 ∧ p.1 ≤ min (tsMax a) (tsMax b)) := by
  refine ⟨fun h => ?_, fun p => ?_, fun p => ?_⟩
  · unfold alignCommonRange
    have hempty : ∀ s : List (Int × ℚ),
        sliceRange (max (tsMin a) (tsMin b)) (min (tsMax a) (tsMax b)) s = [] := by
      intro s
      apply List.eq_nil_iff_forall_not_mem.mpr
      intro p hp
      unfold sliceRange at hp
      rw [List.mem_filter, decide_eq_true_eq] at hp
      omega
    rw [hempty a, hempty b]
  · unfold alignCommonRange sliceRange
    simp only [List.mem_filter, decide_eq_true_eq]
  · unfold alignCommonRange sliceRange
    simp only [List.mem_filter, decide_eq_true_eq]

/-! ## C6 — the standard-deviation ratio is an unguarded division -/

/-- C6 counterexample: a constant series has sample variance 0, hence
sample standard deviation 0, and the source still evaluates the ratio: the
division is total and yields a value (0 under the rational convention for
division by zero; numpy emits an IEEE infinity with a warning) instead of
failing with DivisionByZeroError. -/
theorem std_ratio_zero_variance_counterexample :
    sampleVariance [(3 : ℚ), 3, 3, 3] = 0 ∧ std_ratio 1 0 = 0 := by
  constructor
  · norm_num [sampleVariance, sampleMean]
  · simp [std_ratio]

/-- C6 (amended): the standard-deviation ratio is computed by an unguarded
division.  A zero-variance denominator series (for example a constant one,
whose variance is exactly 0) does not make the computation fail: the
division is still performed and returns a value.  For every nonzero
denominator the true ratio is returned, in that multiplying it back by the
denominator recovers the numerator. -/
theorem std_ratio_unguarded (cval numerator denominator : ℚ) (xs : List ℚ) :
    ((xs ≠ [] ∧ ∀ x ∈ xs, x = cval) → sampleVariance xs = 0) ∧
    std_ratio numerator 0 = 0 ∧
    (denominator ≠ 0 → std_ratio numerator denominator * denominator = numerator) := by
  refine ⟨?_, div_zero numerator, fun hb => div_mul_cancel₀ numerator hb⟩
  rintro ⟨hne, hall⟩
  unfold sampleVariance
  have hzero : (xs.map fun x => (x - sampleMean xs) ^ 2).sum = 0 := by
    apply List.sum_eq_zero
    intro y hy
    obtain ⟨x, hx, rfl⟩ := List.mem_map.mp hy
    rw [hall x hx, sampleMean_of_constant cval xs hne hall]
    ring
  rw [hzero, zero_div]

/-! ## C8 — decompose is deterministic and pure -/

/-- C8: decompose is a deterministic, pure function of its inputs: two
calls on identical series and identical lambda yield identical results,
with no hidden state in the embedding to influence the outcome. -/
theorem decompose_deterministic (s1 s2 : List ℚ) (lam1 lam2 : ℚ)
    (hs : s1 = s2) (hl : lam1 = lam2) :
    decompose s1 lam1 = decompose s2 lam2 := by
  rw [hs, hl]

/-- C8 witness: two repeated calls on the same concrete series and lambda
coincide. -/
theorem decompose_deterministic_witness :
    decompose [(1 : ℚ), 2, 3] 1600 = decompose [(1 : ℚ), 2, 3] 1600 :=
  decompose_deterministic _ _ _ _ rfl rfl

/-! ## C1 — trend + cycle = series -/

/-- C1: for every series with at least 3 observations and every positive
lambda, decompose succeeds and the two returned components satisfy
trend[t] + cycle[t] = series[t] at every index, exactly in rational
arithmetic — in particular within the claimed 1e-9 relative tolerance —
with both components of the same length as the series. -/
theorem decompose_trend_add_cycle (s : List ℚ) (lam : ℚ)
    (h3 : 3 ≤ s.length) (hlam : 0 < lam) :
    ∃ r : FilterResult, decompose s lam = Except.ok r ∧
      r.trend.length = s.length ∧ r.cycle.length = s.length ∧
      (∀ t : ℕ, r.trend.getD t 0 + r.cycle.getD t 0 = s.getD t 0) ∧
      (∀ t : ℕ, |r.trend.getD t 0 + r.cycle.getD t 0 - s.getD t 0| ≤
        1 / 1000000000 * |s.getD t 0|) := by
  have hok : decompose s lam =
      Except.ok { trend := hpTrend s lam, cycle := hpCycle s lam } := by
    unfold decompose
    rw [if_neg (by omega)]
  have hsum : ∀ t : ℕ,
      (hpTrend s lam).getD t 0 + (hpCycle s lam).getD t 0 = s.getD t 0 := by
    intro t
    exact getD_add_zipWith_sub s (hpTrend s lam) (hpTrend_length s lam) t
  have habs : ∀ t : ℕ,
      |(hpTrend s lam).getD t 0 + (hpCycle s lam).getD t 0 - s.getD t 0| ≤
        1 / 1000000000 * |s.getD t 0| := by
    intro t
    rw [hsum t]
    simp only [sub_self, abs_zero]
    positivity
  exact ⟨{ trend := hpTrend s lam, cycle := hpCycle s lam }, hok,
    hpTrend_length s lam, hpCycle_length s lam, hsum, habs⟩

/-- C1 witness: the exact additive decomposition at a concrete
four-observation series with the conventional quarterly lambda. -/
theorem decompose_trend_add_cycle_witness :
    3 ≤ ([(1 : ℚ), 2, 3, 4]).length ∧ (0 : ℚ) < 1600 ∧
    (∃ r : FilterResult, decompose [(1 : ℚ), 2, 3, 4] 1600 = Except.ok r ∧
      r.trend.length = ([(1 : ℚ), 2, 3, 4]).length ∧
      r.cycle.length = ([(1 : ℚ), 2, 3, 4]).length ∧
      (∀ t : ℕ, r.trend.getD t 0 + r.cycle.getD t 0 = ([(1 : ℚ), 2, 3, 4]).getD t 0) ∧
      (∀ t : ℕ, |r.trend.getD t 0 + r.cycle.getD t 0 - ([(1 : ℚ), 2, 3, 4]).getD t 0| ≤
        1 / 1000000000 * |([(1 : ℚ), 2, 3, 4]).getD t 0|)) :=
  ⟨by decide, by norm_num,
    decompose_trend_add_cycle [(1 : ℚ), 2, 3, 4] 1600 (by decide) (by norm_num)⟩

/-! ## C7 — higher lambda gives a smoother trend -/

/-- C7: for a fixed series of at least 3 observations and two positive
penalties lambda1 < lambda2, any trends minimizing the HP objective at the
respective penalties have non-increasing squared-second-difference penalty:
the larger lambda's trend is at least as smooth, both for the raw penalty,
for the mean squared second difference, and for the mean squared second
difference taken relative to that of the original series. -/
theorem hp_smoothness_monotone (s τ1 τ2 : List ℚ) (lam1 lam2 : ℚ)
    (hs : 3 ≤ s.length) (h0 : 0 < lam1) (h12 : lam1 < lam2)
    (h1 : IsHPTrend s lam1 τ1) (h2 : IsHPTrend s lam2 τ2) :
    sumSq (secondDiffs τ2) ≤ sumSq (secondDiffs τ1) ∧
    mssd τ2 ≤ mssd τ1 ∧
    mssd τ2 / mssd s ≤ mssd τ1 / mssd s := by
  obtain ⟨hl1, hmin1⟩ := h1
  obtain ⟨hl2, hmin2⟩ := h2
  have hA := hmin1 τ2 hl2
  have hB := hmin2 τ1 hl1
  unfold hpObjective at hA hB
  have hfac : 0 ≤ (lam2 - lam1) * (sumSq (secondDiffs τ1) - sumSq (secondDiffs τ2)) := by
    nlinarith [hA, hB]
  have key : sumSq (secondDiffs τ2) ≤ sumSq (secondDiffs τ1) := by
    nlinarith [hfac, sub_pos.mpr h12]
  have hd : (0 : ℚ) < (s.length : ℚ) - 2 := by
    have h3 : (3 : ℚ) ≤ (s.length : ℚ) := by exact_mod_cast hs
    linarith
  have hm : mssd τ2 ≤ mssd τ1 := by
    unfold mssd
    rw [hl1, hl2]
    exact (div_le_div_iff_of_pos_right hd).mpr key
  refine ⟨key, hm, ?_⟩
  have hms : (0 : ℚ) ≤ mssd s := by
    unfold mssd
    exact div_nonneg (sumSq_nonneg _) hd.le
  rcases eq_or_lt_of_le hms with hzero | hpos
  · rw [← hzero]
    simp
  · exact (div_le_div_iff_of_pos_right hpos).mpr hm

/-- C7 witness: the constant series is its own minimizing trend at every
nonnegative penalty (its objective is 0, the global minimum), so the
monotonicity applies to it at lambdas 1 < 1600. -/
theorem hp_smoothness_monotone_witness :
    3 ≤ ([(0 : ℚ), 0, 0]).length ∧ (0 : ℚ) < 1 ∧ (1 : ℚ) < 1600 ∧
    IsHPTrend [(0 : ℚ), 0, 0] 1 [(0 : ℚ), 0, 0] ∧
    IsHPTrend [(0 : ℚ), 0, 0] 1600 [(0 : ℚ), 0, 0] ∧
    (sumSq (secondDiffs [(0 : ℚ), 0, 0]) ≤ sumSq (secondDiffs [(0 : ℚ), 0, 0]) ∧
      mssd [(0 : ℚ), 0, 0] ≤ mssd [(0 : ℚ), 0, 0] ∧
      mssd [(0 : ℚ), 0, 0] / mssd [(0 : ℚ), 0, 0] ≤
        mssd [(0 : ℚ), 0, 0] / mssd [(0 : ℚ), 0, 0]) := by
  have hobj : ∀ lam : ℚ, 0 ≤ lam → IsHPTrend [(0 : ℚ), 0, 0] lam [(0 : ℚ), 0, 0] := by
    intro lam hlam
    refine ⟨rfl, fun τ' hτ' => ?_⟩
    have hz : hpObjective [(0 : ℚ), 0, 0] [(0 : ℚ), 0, 0] lam = 0 := by
      norm_num [hpObjective, fitCost, sumSq, secondDiffs]
    rw [hz]
    exact hpObjective_nonneg _ _ _ hlam
  exact ⟨by decide, by norm_num, by norm_num, hobj 1 (by norm_num), hobj 1600 (by norm_num),
    hp_smoothness_monotone _ _ _ _ _ (by decide) (by norm_num) (by norm_num)
      (hobj 1 (by norm_num)) (hobj 1600 (by norm_num))⟩
